import Mathlib

/-!
Verification of the e2e-order-tests runner (src/runner.ts, mature revision,
together with the earlier revision of the single-test executor kept in the
repository) against its natural-language specification.

The TypeScript runner is shallowly embedded: pure string manipulation is
translated to Lean functions on String / List Char; the stateful browser is
an oracle (environment structures of outcome functions); async control flow
with exceptions becomes explicit Except values; the cooperative worker pool
becomes a small-step relation on a scheduler state.  JavaScript-specific
semantics (truthiness of empty strings and of 0, first-occurrence-only
String.replace, regex leftmost matching) are modelled explicitly.
-/

/-! ## JavaScript string primitives -/

/-- JavaScript String.prototype.toUpperCase restricted to the ASCII range,
as used on credential profile keys such as "dev". -/
def jsToUpperCase (s : String) : String :=
  String.mk (s.data.map Char.toUpper)

/-- Split a character list at the first occurrence of the pattern:
returns the part strictly before the first occurrence and the part strictly
after it.  Scans left to right, so the returned split is at the leftmost
occurrence, matching the search order of JavaScript String.prototype.replace
and String.prototype.includes. -/
def splitOnFirstCh (pat : List Char) (s : List Char) : Option (List Char × List Char) :=
  if pat.isPrefixOf s then some ([], s.drop pat.length)
  else
    match s with
    | [] => none
    | c :: rest => (splitOnFirstCh pat rest).map (fun p => (c :: p.1, p.2))

/-- String-level wrapper of splitOnFirstCh. -/
def splitOnFirst (s pat : String) : Option (String × String) :=
  (splitOnFirstCh pat.data s.data).map (fun p => (String.mk p.1, String.mk p.2))

/-- JavaScript String.prototype.replace with a plain string pattern:
replaces only the first occurrence; returns the string unchanged when the
pattern does not occur. -/
def jsReplaceFirst (s pat rep : String) : String :=
  match splitOnFirst s pat with
  | some (a, b) => a ++ rep ++ b
  | none => s

/-- JavaScript String.prototype.includes. -/
def hasSubstr (s pat : String) : Bool :=
  (splitOnFirst s pat).isSome

/-- JavaScript String.prototype.padStart(3, zero) as used for screenshot
indices. -/
def padStart3 (s : String) : String :=
  if 3 ≤ s.length then s else String.mk (List.replicate (3 - s.length) '0') ++ s

/-- JavaScript `v || d` on an optional number: undefined and 0 are falsy. -/
def jsOrNat (v : Option Nat) (d : Nat) : Nat :=
  match v with
  | some n => if n = 0 then d else n
  | none => d

/-- JavaScript truthiness of a possibly-undefined string: undefined and the
empty string are falsy. -/
def jsTruthy (v : Option String) : Bool :=
  match v with
  | some s => s != ""
  | none => false

/-- Keep a possibly-undefined string only when it is truthy (models
patterns of the form `if (x) y = x`). -/
def jsTruthyOpt (v : Option String) : Option String :=
  match v with
  | some s => if s = "" then none else some s
  | none => none

/-! ## Data model (the interfaces at the top of src/runner.ts) -/

/-- TestInfo: human-readable variant descriptors of one test case. -/
structure TestInfo where
  id : String
  option : String
  shipping : String
  payment : String
deriving DecidableEq, Repr

/-- TestAction: one declarative step; tagged by `type`, all other fields
optional exactly as in the TypeScript interface. -/
structure TestAction where
  type : String
  selector : Option String
  value : Option String
  timeout : Option Nat
  x : Option Nat
  y : Option Nat
  filePath : Option String
  filePaths : Option (List String)
  targetSelector : Option String
  comment : Option String
deriving DecidableEq, Repr

/-- A TestAction with only its type set; other fields are filled in with
`with` updates where a concrete action needs them. -/
def actionOfType (t : String) : TestAction :=
  ⟨t, none, none, none, none, none, none, none, none, none⟩

/-- TestCase: one JSON test file. -/
structure TestCase where
  testInfo : TestInfo
  url : String
  credentialKey : Option String
  device : String
  headless : Bool
  actions : List TestAction
deriving DecidableEq, Repr

/-- TestResult of the mature revision of runner.ts (with workerId and
attempt fields).  Wall-clock duration and timestamp are environment inputs
outside the model and are carried as inert fields. -/
structure TestResult where
  testId : String
  testInfo : TestInfo
  success : Bool
  price : Option String
  error : Option String
  screenshots : List String
  duration : Nat
  timestamp : String
  workerId : Option Nat
  attempt : Option Nat
deriving DecidableEq, Repr

/-- TestResult of the earlier revision of the single-test executor kept in
the repository (no workerId / attempt fields). -/
structure TestResultV3 where
  testId : String
  testInfo : TestInfo
  success : Bool
  price : Option String
  error : Option String
  screenshots : List String
  duration : Nat
  timestamp : String
deriving DecidableEq, Repr

/-- Credentials. -/
structure Credentials where
  loginUser : String
  loginPass : String
  basicUser : Option String
  basicPass : Option String
deriving DecidableEq, Repr

/-! ## Credential Resolver (getCredentials, runner.ts lines 83-117) -/

/-- The process environment: variable name to possibly-undefined value. -/
def EnvMap : Type := String → Option String

/-- The key computation (credentialKey or the dev default, uppercased): an
undefined or empty profile name falls back to the dev profile. -/
def credKeyName (credentialKey : Option String) : String :=
  jsToUpperCase (match credentialKey with
    | some s => if s = "" then "dev" else s
    | none => "dev")

/-- getCredentials: resolve the login identity for a (profile, worker)
pair.  A worker-specific pair wins only when the worker id is truthy
(nonzero) and both worker-suffixed variables are truthy; otherwise the
shared pair of the profile is used.  Basic-auth sub-credentials always come from
the shared profile variables. -/
def getCredentials (env : EnvMap) (credentialKey : Option String)
    (workerId : Option Nat) : Credentials :=
  let key := credKeyName credentialKey
  let fromWorker : String × String :=
    match workerId with
    | some w =>
      if w ≠ 0 then
        let workerUser := env (key ++ "_LOGIN_USER_W" ++ toString w)
        let workerPass := env (key ++ "_LOGIN_PASS_W" ++ toString w)
        if jsTruthy workerUser && jsTruthy workerPass then
          (workerUser.getD "", workerPass.getD "")
        else ("", "")
      else ("", "")
    | none => ("", "")
  let resolved : String × String :=
    if fromWorker.1 = "" || fromWorker.2 = "" then
      ((env (key ++ "_LOGIN_USER")).getD "", (env (key ++ "_LOGIN_PASS")).getD "")
    else fromWorker
  { loginUser := resolved.1
    loginPass := resolved.2
    basicUser := env (key ++ "_BASIC_USER")
    basicPass := env (key ++ "_BASIC_PASS") }

/-! ## Placeholder substitution (runner.ts lines 119-123) -/

/-- The literal placeholder token for the login user. -/
def loginUserTok : String := "\x7b\x7bLOGIN_USER\x7d\x7d"

/-- The literal placeholder token for the login password. -/
def loginPassTok : String := "\x7b\x7bLOGIN_PASS\x7d\x7d"

/-- replaceCredentialPlaceholders: two chained String.prototype.replace
calls with plain string patterns, so each token is replaced at its first
occurrence only. -/
def replaceCredentialPlaceholders (value : String) (creds : Credentials) : String :=
  jsReplaceFirst (jsReplaceFirst value loginUserTok creds.loginUser)
    loginPassTok creds.loginPass

/-! ## Retry-Aware Interaction (clickWithRetry, runner.ts lines 135-174) -/

/-- Trace entries for the browser calls clickWithRetry issues against the
target selector: the visibility wait and the click, with the timeout each
call receives and, for the click, its force flag.  The best-effort error
dialog dismissal between attempts is caught-and-ignored page traffic with
no observable effect on the result of the function and is left ambient. -/
inductive ClickCall where
  | waitVisible (attempt : Nat) (timeoutArg : ℚ)
  | clickSel (attempt : Nat) (timeoutArg : ℚ) (force : Bool)
deriving DecidableEq, Repr

/-- The unreliable page as seen by clickWithRetry: per attempt number, the
error thrown by waitForSelector (none = became visible) and by page.click
(none = click landed). -/
structure ClickPageEnv where
  waitErr : Nat → Option String
  clickErr : Nat → Option String

/-- First failure of a given attempt inside the try block: the
waitForSelector error if any, otherwise the click error if any. -/
def attemptErr (env : ClickPageEnv) (attempt : Nat) : Option String :=
  match env.waitErr attempt with
  | some e => some e
  | none => env.clickErr attempt

/-- The attempt loop of clickWithRetry, driven by the list of attempt
numbers 1..maxRetries.  On success the loop returns; on failure the last
error is remembered and the next attempt runs; when the attempts are
exhausted the last error is thrown (a null Error when the loop never ran,
modelled as Except.error none).  Both browser calls receive
timeout / maxRetries and the click is forced from the second attempt on. -/
def clickLoop (env : ClickPageEnv) (timeout : ℚ) (maxRetries : Nat) :
    List Nat → Option String → Except (Option String) Unit × List ClickCall
  | [], lastError => (Except.error lastError, [])
  | attempt :: rest, _ =>
    match env.waitErr attempt with
    | some e =>
      let out := clickLoop env timeout maxRetries rest (some e)
      (out.1, ClickCall.waitVisible attempt (timeout / maxRetries) :: out.2)
    | none =>
      match env.clickErr attempt with
      | none =>
        (Except.ok (),
          [ClickCall.waitVisible attempt (timeout / maxRetries),
           ClickCall.clickSel attempt (timeout / maxRetries) (decide (1 < attempt))])
      | some e =>
        let out := clickLoop env timeout maxRetries rest (some e)
        (out.1,
          ClickCall.waitVisible attempt (timeout / maxRetries)
            :: ClickCall.clickSel attempt (timeout / maxRetries) (decide (1 < attempt))
            :: out.2)

/-- clickWithRetry: run the attempt loop for attempts 1..maxRetries with no
error remembered yet. -/
def clickWithRetry (env : ClickPageEnv) (timeout : ℚ) (maxRetries : Nat) :
    Except (Option String) Unit × List ClickCall :=
  clickLoop env timeout maxRetries (List.range' 1 maxRetries) none

/-! ## Action Dispatcher (executeAction, runner.ts lines 180-294) -/

/-- Values the page returns to state-query actions during one executeAction
call (each call performs at most one query).  textContent and getAttribute
may be null in the browser, hence Option. -/
structure PageView where
  textContent : Option String
  attrValue : Option String
  inputVal : String
  evalResult : String
  url : String
  title : String
deriving Repr

/-- The browser calls executeAction issues, with the argument values it
passes.  Arguments that the source forwards through a TypeScript non-null
assertion keep their Option type: an absent field is forwarded as
undefined, not rejected. -/
inductive PageCall where
  | gotoCall (url : Option String) (timeout : Nat)
  | clickRetry (selector : Option String) (timeout : Nat)
  | waitSel (selector : Option String) (timeout : Nat)
  | fillCall (selector : Option String) (value : String) (timeout : Nat)
  | selectCall (selector : Option String) (value : Option String) (timeout : Nat)
  | checkCall (selector : Option String) (timeout : Nat)
  | uncheckCall (selector : Option String) (timeout : Nat)
  | textContentCall (selector : Option String) (timeout : Nat)
  | getAttributeCall (selector : Option String) (name : Option String) (timeout : Nat)
  | inputValueCall (selector : Option String) (timeout : Nat)
  | waitTimeout (ms : Nat)
  | screenshotCall (path : String) (fullPage : Bool)
  | pressCall (key : Option String)
  | hoverCall (selector : Option String) (timeout : Nat)
  | scrollCall (selector : Option String) (timeout : Nat)
  | evaluateCall (script : Option String)
  | setInputFilesOne (selector : Option String) (filePath : Option String)
  | setInputFilesMany (selector : Option String) (filePaths : Option (List String))
  | urlCall
  | titleCall
  | dragAndDropCall (selector : Option String) (target : Option String) (timeout : Nat)
deriving DecidableEq, Repr

/-- What executeAction hands back to the executor. -/
structure ActionRet where
  screenshot : Option String
  result : Option String
deriving DecidableEq, Repr

/-- An ActionRet with nothing set. -/
def noRet : ActionRet := ⟨none, none⟩

/-- executeAction: dispatch one action by its type tag.  Returns the
ActionRet, the updated screenshot index and the list of browser calls
issued (in order).  Only the value of the fill action goes through
replaceCredentialPlaceholders; the script of the evaluate action is forwarded
verbatim.  An unknown type is logged and skipped: no calls, no result. -/
def executeAction (view : PageView) (action : TestAction) (creds : Credentials)
    (testId : String) (screenshotIndex : Nat) (screenshotDir : String) :
    ActionRet × Nat × List PageCall :=
  let timeout := jsOrNat action.timeout 30000
  match action.type with
  | "goto" => (noRet, screenshotIndex, [PageCall.gotoCall action.value timeout])
  | "click" => (noRet, screenshotIndex, [PageCall.clickRetry action.selector timeout])
  | "fill" =>
    let fillValue := replaceCredentialPlaceholders (action.value.getD "") creds
    (noRet, screenshotIndex,
      [PageCall.waitSel action.selector timeout,
       PageCall.fillCall action.selector fillValue timeout])
  | "select" =>
    (noRet, screenshotIndex,
      [PageCall.waitSel action.selector timeout,
       PageCall.selectCall action.selector action.value timeout])
  | "check" => (noRet, screenshotIndex, [PageCall.checkCall action.selector timeout])
  | "uncheck" => (noRet, screenshotIndex, [PageCall.uncheckCall action.selector timeout])
  | "getText" =>
    ({ noRet with result := some (view.textContent.getD "") }, screenshotIndex,
      [PageCall.textContentCall action.selector timeout])
  | "getAttribute" =>
    ({ noRet with result := some (view.attrValue.getD "") }, screenshotIndex,
      [PageCall.getAttributeCall action.selector action.value timeout])
  | "getInputValue" =>
    ({ noRet with result := some view.inputVal }, screenshotIndex,
      [PageCall.inputValueCall action.selector timeout])
  | "waitForSelector" =>
    (noRet, screenshotIndex, [PageCall.waitSel action.selector timeout])
  | "wait" => (noRet, screenshotIndex, [PageCall.waitTimeout (jsOrNat action.x 1000)])
  | "screenshot" =>
    let p := screenshotDir ++ "/" ++ testId ++ "_" ++ padStart3 (toString screenshotIndex) ++ ".png"
    ({ noRet with screenshot := some p }, screenshotIndex + 1,
      [PageCall.screenshotCall p false])
  | "screenshotFullPage" =>
    let p := screenshotDir ++ "/" ++ testId ++ "_" ++ padStart3 (toString screenshotIndex) ++ ".png"
    ({ noRet with screenshot := some p }, screenshotIndex + 1,
      [PageCall.screenshotCall p true])
  | "press" => (noRet, screenshotIndex, [PageCall.pressCall action.value])
  | "hover" => (noRet, screenshotIndex, [PageCall.hoverCall action.selector timeout])
  | "scrollIntoView" => (noRet, screenshotIndex, [PageCall.scrollCall action.selector timeout])
  | "evaluate" =>
    ({ noRet with result := some view.evalResult }, screenshotIndex,
      [PageCall.evaluateCall action.value])
  | "uploadFile" =>
    (noRet, screenshotIndex, [PageCall.setInputFilesOne action.selector action.filePath])
  | "uploadFiles" =>
    (noRet, screenshotIndex, [PageCall.setInputFilesMany action.selector action.filePaths])
  | "getCurrentUrl" =>
    ({ noRet with result := some view.url }, screenshotIndex, [PageCall.urlCall])
  | "getTitle" =>
    ({ noRet with result := some view.title }, screenshotIndex, [PageCall.titleCall])
  | "dragAndDrop" =>
    (noRet, screenshotIndex,
      [PageCall.dragAndDropCall action.selector action.targetSelector timeout])
  | _ => (noRet, screenshotIndex, [])

/-! ## Price Extractor (extractPrice, runner.ts lines 300-326) -/

/-- A character matched by the regex class with digits and comma. -/
def isPriceChar (c : Char) : Bool := c.isDigit || c = ','

/-- JavaScript regex whitespace, the characters relevant here. -/
def jsSpace (c : Char) : Bool :=
  c = ' ' || c = '\t' || c = '\n' || c = '\r' || c = '\x0b' || c = '\x0c' ||
  c = ' ' || c = '　'

/-- Leftmost match of the price regex (a nonempty run of digits/commas
immediately followed by the yen sign), returning the capture group.  The
JavaScript engine searches position by position with a greedy character
class; a position inside a run that is not terminated by the yen sign
fails exactly like the start of the run does, so advancing one character at a
time reproduces its leftmost-match result. -/
def firstYenMatch : List Char → Option (List Char)
  | [] => none
  | c :: rest =>
    if isPriceChar c then
      match rest.dropWhile isPriceChar with
      | '円' :: _ => some ((c :: rest.takeWhile isPriceChar) ++ ['円'])
      | _ => firstYenMatch rest
    else firstYenMatch rest

/-- Leftmost match of the total-label regex (the literal word for total,
then optional whitespace, then a priced amount), returning the capture
group.  When an occurrence of the label fails to complete a match, the
engine resumes scanning one position later. -/
def totalThenPrice : List Char → Option (List Char)
  | [] => none
  | c :: rest =>
    if ('合' :: '計' :: []).isPrefixOf (c :: rest) then
      let afterSp := ((c :: rest).drop 2).dropWhile jsSpace
      let run := afterSp.takeWhile isPriceChar
      if run.isEmpty then totalThenPrice rest
      else
        match afterSp.dropWhile isPriceChar with
        | '円' :: _ => some (run ++ ['円'])
        | _ => totalThenPrice rest
    else totalThenPrice rest

/-- The rendered page state extractPrice inspects: the text of the
dedicated total-row element if present (textContent with null already
coerced to the empty string), and the innerText of the page body. -/
structure PageDom where
  totalRowText : Option String
  bodyInnerText : String
deriving Repr

/-- extractPrice: the in-page script tries the total-row element first,
then the whole-body total-label pattern; the first successful strategy
wins and a null result is coerced to undefined (a match is never empty, so
the JavaScript falsiness check only converts null).  A thrown page error is
caught and yields undefined; that path has no bearing on the extracted
value and is ambient here. -/
def extractPrice (dom : PageDom) : Option String :=
  let fromRow : Option (List Char) :=
    match dom.totalRowText with
    | some t => firstYenMatch t.data
    | none => none
  let price : Option (List Char) :=
    match fromRow with
    | some m => some m
    | none => totalThenPrice dom.bodyInnerText.data
  match price with
  | some m => if String.mk m = "" then none else some (String.mk m)
  | none => none

/-! ## Single Test Executor (runTest, runner.ts lines 332-433, and the
earlier revision of runTest kept in the repository) -/

/-- The browser session as one attempt of runTest observes it.  actOutcome
is the observable outcome of executeAction on the i-th action of the case:
a thrown error message, or normal completion together with the screenshot
path the action produced (if any).  urlAfter is page.url() right after the
i-th action; extractAt is what extractPrice returns when invoked at that
point; extractOnErr is what it returns when invoked from the failure path;
errorShotOk says whether the best-effort failure screenshot succeeds. -/
structure RunEnv where
  launchErr : Option String
  gotoErr : Option String
  actOutcome : Nat → Except String (Option String)
  urlAfter : Nat → String
  extractAt : Nat → Option String
  extractOnErr : Option String
  errorShotOk : Bool

/-- The failed TestResult the mature runTest builds in its catch block:
the price captured inside the try block is out of scope there, so the
result record carries no price at all; the screenshots captured so far are
carried over, extended by the best-effort failure screenshot. -/
def failedResult (env : RunEnv) (tc : TestCase) (workerId attempt : Nat)
    (sdir : String) (pageExists : Bool) (msg : String) (shots : List String) : TestResult :=
  let errPath := sdir ++ "/" ++ tc.testInfo.id ++ "_error_attempt" ++ toString attempt ++ ".png"
  let shots2 := if pageExists && env.errorShotOk then shots ++ [errPath] else shots
  { testId := tc.testInfo.id
    testInfo := tc.testInfo
    success := false
    price := none
    error := some msg
    screenshots := shots2
    duration := 0
    timestamp := ""
    workerId := some workerId
    attempt := some attempt }

/-- The action loop of the mature runTest, walking the remaining actions
(i is the index of the next one, feeding the oracle) and carrying the
screenshots and the price captured so far.  After every screenshotFullPage
action whose current URL contains the confirmation marker, the price is
reassigned from a fresh extraction pass (a direct assignment in the
source, so an unsuccessful later pass overwrites an earlier value).  The
first thrown action error routes to the catch block. -/
def runTestGo (env : RunEnv) (tc : TestCase) (workerId attempt : Nat) (sdir : String) :
    List TestAction → Nat → List String → Option String → TestResult
  | [], _, shots, price =>
    { testId := tc.testInfo.id
      testInfo := tc.testInfo
      success := true
      price := price
      error := none
      screenshots := shots
      duration := 0
      timestamp := ""
      workerId := some workerId
      attempt := some attempt }
  | action :: restActs, i, shots, price =>
    match env.actOutcome i with
    | Except.error msg => failedResult env tc workerId attempt sdir true msg shots
    | Except.ok shot =>
      let shots2 := shots ++ shot.toList
      let price2 :=
        if action.type == "screenshotFullPage" && hasSubstr (env.urlAfter i) "/confirm" then
          env.extractAt i
        else price
      runTestGo env tc workerId attempt sdir restActs (i + 1) shots2 price2

/-- runTest, mature revision: launch the browser, do the initial
navigation, then run the action loop.  A launch failure reaches the catch
block with no page, so no failure screenshot is taken; an initial
navigation failure reaches it with a page but with no actions executed. -/
def runTest (env : RunEnv) (tc : TestCase) (workerId attempt : Nat) (sdir : String) :
    TestResult :=
  match env.launchErr with
  | some msg => failedResult env tc workerId attempt sdir false msg []
  | none =>
    match env.gotoErr with
    | some msg => failedResult env tc workerId attempt sdir true msg []
    | none => runTestGo env tc workerId attempt sdir tc.actions 0 [] none

/-- The failed TestResultV3 of the earlier executor revision: the price
variable lives outside the try block, so the catch block first attempts
one final price extraction (only when no price was captured yet and the
result is truthy) and the failed result keeps the price. -/
def failedResultV3 (env : RunEnv) (tc : TestCase) (sdir : String)
    (pageExists : Bool) (msg : String) (shots : List String) (price : Option String) :
    TestResultV3 :=
  let price2 :=
    if pageExists && price.isNone then
      match jsTruthyOpt env.extractOnErr with
      | some p => some p
      | none => price
    else price
  let errPath := sdir ++ "/" ++ tc.testInfo.id ++ "_error.png"
  let shots2 := if pageExists && env.errorShotOk then shots ++ [errPath] else shots
  { testId := tc.testInfo.id
    testInfo := tc.testInfo
    success := false
    price := price2
    error := some msg
    screenshots := shots2
    duration := 0
    timestamp := "" }

/-- The action loop of the earlier executor revision: price extraction
runs after screenshot as well as screenshotFullPage actions, on
confirmation as well as completion pages, and only a truthy extraction
overwrites the held price. -/
def runTestV3Go (env : RunEnv) (tc : TestCase) (sdir : String) :
    List TestAction → Nat → List String → Option String → TestResultV3
  | [], _, shots, price =>
    { testId := tc.testInfo.id
      testInfo := tc.testInfo
      success := true
      price := price
      error := none
      screenshots := shots
      duration := 0
      timestamp := "" }
  | action :: restActs, i, shots, price =>
    match env.actOutcome i with
    | Except.error msg => failedResultV3 env tc sdir true msg shots price
    | Except.ok shot =>
      let shots2 := shots ++ shot.toList
      let price2 :=
        if (action.type == "screenshotFullPage" || action.type == "screenshot") &&
            (hasSubstr (env.urlAfter i) "/confirm" || hasSubstr (env.urlAfter i) "complete") then
          match jsTruthyOpt (env.extractAt i) with
          | some p => some p
          | none => price
        else price
      runTestV3Go env tc sdir restActs (i + 1) shots2 price2

/-- runTest, earlier revision (the one whose failure path salvages the
price).  The workerId parameter is used only in log prefixes. -/
def runTestV3 (env : RunEnv) (tc : TestCase) (workerId : Nat) (sdir : String) :
    TestResultV3 :=
  match env.launchErr with
  | some msg => failedResultV3 env tc sdir false msg [] none
  | none =>
    match env.gotoErr with
    | some msg => failedResultV3 env tc sdir true msg [] none
    | none => runTestV3Go env tc sdir tc.actions 0 [] none

/-! ## Bounded whole-test retry (runTestWithRetry, runner.ts lines 439-461) -/

/-- Observable outcome of runTestWithRetry: the returned result (none only
when the attempt budget is zero and the loop never runs), the sleeps
performed between failed attempts (in ms, in order), and the attempt
numbers that actually executed. -/
structure RetryOut where
  result : Option TestResult
  sleeps : List Nat
  attempts : List Nat
deriving DecidableEq, Repr

/-- The attempt loop of runTestWithRetry, driven by the list of attempt
numbers 1..maxRetries (envs gives the browser behaviour of each attempt).
The loop returns at the first successful attempt; after a failed attempt
that is not the last, it sleeps retryDelayMs * attempt before the next
one; after the last attempt it returns the result of that attempt regardless. -/
def retryLoop (envs : Nat → RunEnv) (tc : TestCase) (workerId : Nat) (sdir : String)
    (retryDelayMs : Nat) : List Nat → RetryOut
  | [] => ⟨none, [], []⟩
  | [attempt] =>
    let r := runTest (envs attempt) tc workerId attempt sdir
    ⟨some r, [], [attempt]⟩
  | attempt :: next :: rest =>
    let r := runTest (envs attempt) tc workerId attempt sdir
    if r.success then ⟨some r, [], [attempt]⟩
    else
      let out := retryLoop envs tc workerId sdir retryDelayMs (next :: rest)
      ⟨out.result, retryDelayMs * attempt :: out.sleeps, attempt :: out.attempts⟩

/-- runTestWithRetry: run the attempt loop for attempts 1..maxRetries. -/
def runTestWithRetry (envs : Nat → RunEnv) (tc : TestCase) (workerId : Nat)
    (sdir : String) (maxRetries retryDelayMs : Nat) : RetryOut :=
  retryLoop envs tc workerId sdir retryDelayMs (List.range' 1 maxRetries)

/-! ## Worker Pool Scheduler (runTestsInParallel, runner.ts lines 467-521)

The runner is single-threaded cooperative: the queue-length check of a worker
and queue.shift() have no suspension point between them, so a pop is one
atomic step; running a test suspends the worker (other workers interleave
freely); pushing the result is another step.  The staggered worker starts
only delay when a worker begins taking steps, which the nondeterministic
interleaving below subsumes. -/

/-- Status of one worker task. -/
inductive WStatus where
  | idle
  | running (tc : TestCase)
  | done
deriving DecidableEq, Repr

/-- Scheduler state: the shared queue, the shared append-only results
collection, and the worker tasks.  Each appended result is recorded with
the TestCase it came from (ghost information used to state conservation;
the persisted array is the second components). -/
structure SchedState where
  queue : List TestCase
  results : List (TestCase × Option TestResult)
  workers : List WStatus
deriving DecidableEq, Repr

/-- One cooperative step of runTestsInParallel, parameterized by what a
given worker returns from its whole-test execution of a given case.  pop: an
idle worker finds the queue nonempty and atomically shifts the head;
finish: the runTestWithRetry call of a running worker returns and the result is
pushed; halt: an idle worker finds the queue empty and its loop exits.
Workers are 1-indexed in the source, so worker list index i is worker
i+1. -/
inductive SchedStep (exec : Nat → TestCase → Option TestResult) :
    SchedState → SchedState → Prop where
  | pop (s : SchedState) (i : Nat) (hi : i < s.workers.length)
      (hidle : s.workers.get ⟨i, hi⟩ = WStatus.idle)
      (tc : TestCase) (rest : List TestCase) (hq : s.queue = tc :: rest) :
      SchedStep exec s
        { queue := rest, results := s.results,
          workers := s.workers.set i (WStatus.running tc) }
  | finish (s : SchedState) (i : Nat) (hi : i < s.workers.length) (tc : TestCase)
      (hrun : s.workers.get ⟨i, hi⟩ = WStatus.running tc) :
      SchedStep exec s
        { queue := s.queue, results := s.results ++ [(tc, exec (i + 1) tc)],
          workers := s.workers.set i WStatus.idle }
  | halt (s : SchedState) (i : Nat) (hi : i < s.workers.length)
      (hidle : s.workers.get ⟨i, hi⟩ = WStatus.idle) (hq : s.queue = []) :
      SchedStep exec s
        { queue := s.queue, results := s.results,
          workers := s.workers.set i WStatus.done }

/-- Initial scheduler state: the full case list queued, no results, n idle
workers. -/
def SchedInit (cases : List TestCase) (n : Nat) : SchedState :=
  { queue := cases, results := [], workers := List.replicate n WStatus.idle }

/-- Reachability under scheduler steps. -/
def SchedReachable (exec : Nat → TestCase → Option TestResult)
    (s t : SchedState) : Prop :=
  Relation.ReflTransGen (SchedStep exec) s t

/-- A state from which no scheduler step is possible (the join of all
worker loops has completed). -/
def SchedTerminal (exec : Nat → TestCase → Option TestResult) (s : SchedState) : Prop :=
  ∀ t, ¬ SchedStep exec s t

/-- The case a worker status is currently running, if any. -/
def runningOf : WStatus → Option TestCase
  | WStatus.running tc => some tc
  | _ => none

/-- The cases currently claimed by running workers. -/
def runningCases (ws : List WStatus) : List TestCase :=
  ws.filterMap runningOf

/-- What one whole-test execution by worker w on case tc returns, when the
per-attempt browser behaviour is envs w tc. -/
def schedExec (envs : Nat → TestCase → Nat → RunEnv) (sdir : String)
    (maxRetries retryDelayMs : Nat) : Nat → TestCase → Option TestResult :=
  fun w tc => (runTestWithRetry (envs w tc) tc w sdir maxRetries retryDelayMs).result

/-! ## Target addressing of the mature Action Dispatcher (spec section 4.1)

Modelled from the spec: the dispatcher revision with two-mode target
addressing is not among the source files kept under src/ — the TestAction
interface there has no role/name/exact fields and none of the kept
revisions defines a MissingTargetError.  The definitions below follow the
words of the spec: "Target addressing resolves either mode (selector string or
role+name+exact) to one concrete element; if an action needs a target and
has neither, dispatch fails with a MissingTargetError before attempting
any interaction." -/

/-- Modelled from the spec: an action record of the mature dispatcher,
carrying both addressing modes as optional fields, plus the upload path
and the API-synchronization fields (URL pattern to wait on, optional
response field to extract) that the repository refactoring guide lists in
its TestAction interface. -/
structure SpecAction where
  type : String
  selector : Option String
  role : Option String
  name : Option String
  exact : Option Bool
  value : Option String
  filePath : Option String
  urlPattern : Option String
  responseField : Option String
deriving DecidableEq, Repr

/-- Modelled from the spec: a resolved concrete target, by structural
selector or by accessible role + name with an optional exact-match flag. -/
inductive SpecTarget where
  | bySelector (s : String)
  | byRole (role name : String) (exact : Bool)
deriving DecidableEq, Repr

/-- Modelled from the spec: the error taxonomy entry of the dispatcher for a
targeted action with no addressing information. -/
inductive DispatchErr where
  | missingTarget
  | other (msg : String)
deriving DecidableEq, Repr

/-- Modelled from the spec: the action kinds that require a target
(interaction, state query on an element, target-visibility waits, file
injection including the composite upload-then-wait-for-response kind —
the repository refactoring guide and its refactor script show it carrying
the file-input selector — and the drag source).  The pure API-wait kind
(waitForResponse) addresses a URL pattern, not an element, and is
untargeted. -/
def specNeedsTarget (t : String) : Bool :=
  t ∈ ["click", "fill", "select", "check", "uncheck", "getText", "getAttribute",
       "getInputValue", "waitForSelector", "hover", "scrollIntoView",
       "uploadFile", "uploadFiles", "uploadFileWithApiWait", "dragAndDrop"]

/-- Modelled from the spec: resolve the target addressing of an action.  A
selector string wins; otherwise role+name addressing is used; with
neither, resolution fails with MissingTargetError. -/
def resolveTarget (a : SpecAction) : Except DispatchErr SpecTarget :=
  match a.selector with
  | some s => Except.ok (SpecTarget.bySelector s)
  | none =>
    match a.role, a.name with
    | some r, some n => Except.ok (SpecTarget.byRole r n (a.exact.getD false))
    | _, _ => Except.error DispatchErr.missingTarget

/-- Modelled from the spec: page interactions the mature dispatcher can
issue — one against a resolved target, or one with no target (navigation,
fixed waits and similar). -/
inductive SpecPageCall where
  | interact (target : SpecTarget) (kind : String)
  | untargeted (kind : String)
deriving DecidableEq, Repr

/-- Modelled from the spec: dispatch one action.  A target-needing action
first resolves its addressing; only a resolved target ever reaches the
page, so a resolution failure produces MissingTargetError with an empty
interaction trace. -/
def specDispatch (a : SpecAction) : Except DispatchErr Unit × List SpecPageCall :=
  if specNeedsTarget a.type then
    match resolveTarget a with
    | Except.error e => (Except.error e, [])
    | Except.ok tgt => (Except.ok (), [SpecPageCall.interact tgt a.type])
  else (Except.ok (), [SpecPageCall.untargeted a.type])

/-! ## Concrete inputs used by counterexamples and witnesses -/

/-- A two-action case: a full-page screenshot on the confirmation page,
then a click that will fail. -/
def tcDemo : TestCase :=
  { testInfo := { id := "test_001", option := "stand", shipping := "standard", payment := "card" }
    url := "https://shop.example.test/item/1"
    credentialKey := none
    device := "pc"
    headless := true
    actions := [actionOfType "screenshotFullPage",
                { actionOfType "click" with selector := some "#submit-order" }] }

/-- The same case truncated before the failing action. -/
def tcDemoPrefix : TestCase :=
  { tcDemo with actions := tcDemo.actions.take 1 }

/-- Browser behaviour for tcDemo: the screenshot action succeeds on the
confirmation page where extraction sees a price; the click action throws;
the failure-path extraction still sees the same price. -/
def envDemo : RunEnv :=
  { launchErr := none
    gotoErr := none
    actOutcome := fun i =>
      if i = 0 then Except.ok (some "shots/test_001_001.png")
      else Except.error "click timeout"
    urlAfter := fun _ => "https://shop.example.test/order/confirm"
    extractAt := fun _ => some "3,500円"
    extractOnErr := some "3,500円"
    errorShotOk := true }

/-- A browser behaviour whose every attempt fails at launch. -/
def envFail : RunEnv :=
  { launchErr := some "browser launch failed"
    gotoErr := none
    actOutcome := fun _ => Except.ok none
    urlAfter := fun _ => ""
    extractAt := fun _ => none
    extractOnErr := none
    errorShotOk := false }

/-- A browser behaviour whose attempts succeed immediately (no actions
fail; tcDemoPrefix under envDemo also succeeds, this one is for cases with
no actions at all). -/
def envOk : RunEnv :=
  { launchErr := none
    gotoErr := none
    actOutcome := fun _ => Except.ok none
    urlAfter := fun _ => ""
    extractAt := fun _ => none
    extractOnErr := none
    errorShotOk := true }

/-- Demo credentials. -/
def credsDemo : Credentials :=
  { loginUser := "alice", loginPass := "secret", basicUser := none, basicPass := none }

/-- A demo page view for dispatcher calls. -/
def pvDemo : PageView :=
  { textContent := some "text", attrValue := some "attr", inputVal := "input"
    evalResult := "evald", url := "https://shop.example.test/order/confirm"
    title := "shop" }

/-- Click behaviour that fails twice and succeeds on the third attempt. -/
def clickEnvDemo : ClickPageEnv :=
  { waitErr := fun _ => none
    clickErr := fun a => if a ≤ 2 then some "element is intercepted" else none }

/-- A concrete process environment: worker 2 has a full override pair,
worker 3 has none; the shared pair and Basic-auth pair are set. -/
def envC4 : EnvMap := fun name =>
  if name = "DEV_LOGIN_USER_W2" then some "w2user"
  else if name = "DEV_LOGIN_PASS_W2" then some "w2pass"
  else if name = "DEV_LOGIN_USER" then some "shareduser"
  else if name = "DEV_LOGIN_PASS" then some "sharedpass"
  else if name = "DEV_BASIC_USER" then some "basicuser"
  else if name = "DEV_BASIC_PASS" then some "basicpass"
  else none

/-- A concrete whole-test executor for the scheduler demo: every attempt
of every case fails at browser launch. -/
def execDemo : Nat → TestCase → Option TestResult :=
  schedExec (fun _ _ _ => envFail) "shots" 2 5000

/-- Demo scheduler state after worker 1 pops the only case. -/
def schedMid1 : SchedState :=
  { queue := [], results := [], workers := [WStatus.running tcDemo] }

/-- Demo scheduler state after worker 1 pushes the result. -/
def schedMid2 : SchedState :=
  { queue := [], results := [(tcDemo, execDemo 1 tcDemo)], workers := [WStatus.idle] }

/-- Demo terminal scheduler state: worker 1 has halted. -/
def schedFinal : SchedState :=
  { queue := [], results := [(tcDemo, execDemo 1 tcDemo)], workers := [WStatus.done] }

/-! ## Helper lemmas -/

/-- dropWhile never lengthens a list. -/
theorem dropWhile_len_le (p : Char → Bool) (l : List Char) :
    (l.dropWhile p).length ≤ l.length := by
  induction l with
  | nil => simp
  | cons a t ih =>
    simp only [List.dropWhile]
    split
    · exact Nat.le_succ_of_le ih
    · simp

/-- A truthy possibly-undefined string yields a nonempty string under
getD with the empty default. -/
theorem jsTruthy_getD_ne (v : Option String) (h : jsTruthy v = true) : v.getD "" ≠ "" := by
  cases v with
  | none => simp [jsTruthy] at h
  | some s => simpa [jsTruthy] using h

/-- A successful price-regex match is never the empty string. -/
theorem firstYenMatch_ne_nil : ∀ (cs m : List Char), firstYenMatch cs = some m → m ≠ [] := by
  intro cs
  induction cs with
  | nil => intro m h; simp [firstYenMatch] at h
  | cons c rest ih =>
    intro m h hm
    subst hm
    rw [firstYenMatch] at h
    split at h
    · split at h
      · simp at h
      · exact ih [] h rfl
    · exact ih [] h rfl

/-! ## Claim theorems -/

/-- C4: Credential resolution: for every profile and worker identity (the
worker ids of the scheduler start at 1), if both the worker-suffixed user and
password variables are set (non-empty), getCredentials returns that
worker-specific pair; otherwise it returns the shared pair of the profile; and
the Basic-auth sub-credentials are always taken from the shared profile
variables regardless of worker identity. -/
theorem getCredentials_worker_precedence (env : EnvMap) (ck : Option String) (w : Nat)
    (hw : 1 ≤ w) :
    ((jsTruthy (env (credKeyName ck ++ "_LOGIN_USER_W" ++ toString w)) &&
      jsTruthy (env (credKeyName ck ++ "_LOGIN_PASS_W" ++ toString w))) = true →
      (getCredentials env ck (some w)).loginUser
        = (env (credKeyName ck ++ "_LOGIN_USER_W" ++ toString w)).getD "" ∧
      (getCredentials env ck (some w)).loginPass
        = (env (credKeyName ck ++ "_LOGIN_PASS_W" ++ toString w)).getD "") ∧
    ((jsTruthy (env (credKeyName ck ++ "_LOGIN_USER_W" ++ toString w)) &&
      jsTruthy (env (credKeyName ck ++ "_LOGIN_PASS_W" ++ toString w))) = false →
      (getCredentials env ck (some w)).loginUser
        = (env (credKeyName ck ++ "_LOGIN_USER")).getD "" ∧
      (getCredentials env ck (some w)).loginPass
        = (env (credKeyName ck ++ "_LOGIN_PASS")).getD "") ∧
    (∀ wid : Option Nat,
      (getCredentials env ck wid).basicUser = env (credKeyName ck ++ "_BASIC_USER") ∧
      (getCredentials env ck wid).basicPass = env (credKeyName ck ++ "_BASIC_PASS")) := by
  have hw0 : w ≠ 0 := by omega
  refine ⟨?_, ?_, ?_⟩
  · intro h
    have h1 := jsTruthy_getD_ne _
      (by simp_all : jsTruthy (env (credKeyName ck ++ "_LOGIN_USER_W" ++ toString w)) = true)
    have h2 := jsTruthy_getD_ne _
      (by simp_all : jsTruthy (env (credKeyName ck ++ "_LOGIN_PASS_W" ++ toString w)) = true)
    constructor <;> simp [getCredentials, hw0, h, h1, h2]
  · intro h
    constructor <;> simp [getCredentials, hw0, h]
  · intro wid
    constructor <;> simp [getCredentials]

/-- C4 witness: under envC4, worker 2 gets the W2 override pair, worker 3
falls back to the shared pair, and Basic-auth credentials come from the
shared profile variables for both. -/
theorem getCredentials_worker_precedence_witness :
    ((jsTruthy (envC4 (credKeyName none ++ "_LOGIN_USER_W" ++ toString 2)) &&
      jsTruthy (envC4 (credKeyName none ++ "_LOGIN_PASS_W" ++ toString 2))) = true) ∧
    (getCredentials envC4 none (some 2)).loginUser = "w2user" ∧
    (getCredentials envC4 none (some 2)).loginPass = "w2pass" ∧
    ((jsTruthy (envC4 (credKeyName none ++ "_LOGIN_USER_W" ++ toString 3)) &&
      jsTruthy (envC4 (credKeyName none ++ "_LOGIN_PASS_W" ++ toString 3))) = false) ∧
    (getCredentials envC4 none (some 3)).loginUser = "shareduser" ∧
    (getCredentials envC4 none (some 3)).loginPass = "sharedpass" ∧
    (getCredentials envC4 none (some 2)).basicUser = some "basicuser" ∧
    (getCredentials envC4 none (some 3)).basicPass = some "basicpass" := by
  have h2 := getCredentials_worker_precedence envC4 none 2 (by decide)
  have h3 := getCredentials_worker_precedence envC4 none 3 (by decide)
  refine ⟨by decide, ?_, ?_, by decide, ?_, ?_, ?_, ?_⟩
  · exact ((h2.1 (by decide)).1).trans (by decide)
  · exact ((h2.1 (by decide)).2).trans (by decide)
  · exact ((h3.2.1 (by decide)).1).trans (by decide)
  · exact ((h3.2.1 (by decide)).2).trans (by decide)
  · exact ((h2.2.2 (some 2)).1).trans (by decide)
  · exact ((h3.2.2 (some 3)).2).trans (by decide)

/-- C10 (implicit): replaceCredentialPlaceholders substitutes each token
only at its first occurrence.  User-token half: when the first occurrence
of the user token splits the input as a ++ token ++ b, the result is
a ++ loginUser ++ b, with b — which carries every later occurrence of that
token — returned verbatim (the side condition only says the password token
does not also fire on this input, which would be a second, independent
first-occurrence substitution).  Password-token half: on an input free of
the user token (so the first replace is the identity), when the first
occurrence of the password token splits the input as a ++ token ++ b, the
result is a ++ loginPass ++ b, with every later occurrence of that token
inside b returned verbatim. -/
theorem replaceCredentialPlaceholders_first_occurrence :
    (∀ (c : Credentials) (s a b : String),
      splitOnFirst s loginUserTok = some (a, b) →
      splitOnFirst (a ++ c.loginUser ++ b) loginPassTok = none →
      replaceCredentialPlaceholders s c = a ++ c.loginUser ++ b) ∧
    (∀ (c : Credentials) (s a b : String),
      splitOnFirst s loginUserTok = none →
      splitOnFirst s loginPassTok = some (a, b) →
      replaceCredentialPlaceholders s c = a ++ c.loginPass ++ b) := by
  constructor
  · intro c s a b h1 h2
    simp [replaceCredentialPlaceholders, jsReplaceFirst, h1, h2]
  · intro c s a b h1 h2
    simp [replaceCredentialPlaceholders, jsReplaceFirst, h1, h2]

/-- C10 witness: with the user token occurring twice, only its first
occurrence is substituted and the second survives verbatim; likewise for
the password token occurring twice. -/
theorem replaceCredentialPlaceholders_first_occurrence_witness :
    splitOnFirst ("user=" ++ loginUserTok ++ "+" ++ loginUserTok) loginUserTok
      = some ("user=", "+" ++ loginUserTok) ∧
    replaceCredentialPlaceholders ("user=" ++ loginUserTok ++ "+" ++ loginUserTok) credsDemo
      = "user=" ++ credsDemo.loginUser ++ ("+" ++ loginUserTok) ∧
    splitOnFirst ("pw=" ++ loginPassTok ++ "+" ++ loginPassTok) loginPassTok
      = some ("pw=", "+" ++ loginPassTok) ∧
    replaceCredentialPlaceholders ("pw=" ++ loginPassTok ++ "+" ++ loginPassTok) credsDemo
      = "pw=" ++ credsDemo.loginPass ++ ("+" ++ loginPassTok) :=
  ⟨by decide,
   replaceCredentialPlaceholders_first_occurrence.1 credsDemo _ _ _ (by decide) (by decide),
   by decide,
   replaceCredentialPlaceholders_first_occurrence.2 credsDemo _ _ _ (by decide) (by decide)⟩

/-- C6: extractPrice tries its strategies in fixed priority order with
first success winning: a match inside the dedicated total-row element wins
outright; when that strategy fails, extraction behaves exactly as if only
the body-text strategy existed; in particular, for a page whose body text
is exactly the total label followed by 3,500 yen and which has no total-row
element, extraction returns the 3,500-yen string. -/
theorem extractPrice_priority_fallback :
    (∀ (t b : String) (m : List Char), firstYenMatch t.data = some m →
      extractPrice { totalRowText := some t, bodyInnerText := b } = some (String.mk m)) ∧
    (∀ t b : String, firstYenMatch t.data = none →
      extractPrice { totalRowText := some t, bodyInnerText := b }
        = extractPrice { totalRowText := none, bodyInnerText := b }) ∧
    extractPrice { totalRowText := none, bodyInnerText := "合計 3,500円" } = some "3,500円" := by
  refine ⟨?_, ?_, by decide⟩
  · intro t b m h
    have hne : String.mk m ≠ "" := by
      intro he
      exact firstYenMatch_ne_nil t.data m h (by simpa using congrArg String.data he)
    simp [extractPrice, h, hne]
  · intro t b h
    simp [extractPrice, h]

/-- C6 witness: the total-row strategy fires first (even on a row whose
match is not the grand total), and the body-text fallback fires at the
claimed concrete input. -/
theorem extractPrice_priority_fallback_witness :
    firstYenMatch "小計 100円 合計 200円".data = some "100円".data ∧
    extractPrice { totalRowText := some "小計 100円 合計 200円", bodyInnerText := "合計 999円" }
      = some (String.mk "100円".data) :=
  ⟨by decide,
   extractPrice_priority_fallback.1 "小計 100円 合計 200円" "合計 999円" "100円".data (by decide)⟩

/-- C7 (spec-modelled dispatcher): for every action whose kind requires a
target but which supplies no addressing information (no selector and no
complete role+name pair), dispatch fails with a MissingTargetError and the
page-interaction trace is empty — the failure happens before any
interaction is attempted. -/
theorem specDispatch_missing_target (a : SpecAction)
    (hneed : specNeedsTarget a.type = true) (hsel : a.selector = none)
    (hrn : a.role = none ∨ a.name = none) :
    specDispatch a = (Except.error DispatchErr.missingTarget, []) := by
  obtain ⟨ty, sel, role, nm, ex, val, fp, up, rf⟩ := a
  simp only at hneed hsel hrn
  subst hsel
  rcases hrn with h | h
  · subst h
    simp [specDispatch, resolveTarget, hneed]
  · subst h
    cases role <;> simp [specDispatch, resolveTarget, hneed]

/-- C7 witness: a click action and a composite upload-then-wait action,
each with neither addressing mode, dispatch to MissingTargetError with no
page interaction. -/
theorem specDispatch_missing_target_witness :
    specNeedsTarget "click" = true ∧
    specDispatch { type := "click", selector := none, role := none, name := none,
                   exact := none, value := none, filePath := none, urlPattern := none,
                   responseField := none }
      = (Except.error DispatchErr.missingTarget, []) ∧
    specNeedsTarget "uploadFileWithApiWait" = true ∧
    specDispatch { type := "uploadFileWithApiWait", selector := none, role := none,
                   name := none, exact := none, value := none,
                   filePath := some "./assets/images/sample.jpg",
                   urlPattern := some "upload", responseField := none }
      = (Except.error DispatchErr.missingTarget, []) :=
  ⟨by decide, specDispatch_missing_target _ (by decide) rfl (Or.inl rfl),
   by decide, specDispatch_missing_target _ (by decide) rfl (Or.inl rfl)⟩

/-- C8 counterexample: the claim says substitution is applied uniformly to
the fill and the evaluate actions, but an evaluate action whose value is
exactly the user placeholder token passes it to the page verbatim, even
though substitution would have produced the resolved user name. -/
theorem executeAction_evaluate_no_substitution :
    (executeAction pvDemo { actionOfType "evaluate" with value := some loginUserTok }
        credsDemo "test_001" 1 "shots").2.2
      = [PageCall.evaluateCall (some loginUserTok)] ∧
    replaceCredentialPlaceholders loginUserTok credsDemo = "alice" ∧
    loginUserTok ≠ "alice" := by decide

/-- C8 (amended): the placeholder substitution is applied to the fill
value of the fill action before it reaches the page; the script of evaluate is
passed to the page verbatim, with no substitution. -/
theorem executeAction_placeholder_policy (view : PageView) (a : TestAction)
    (creds : Credentials) (tid : String) (idx : Nat) (sdir : String) :
    (a.type = "fill" →
      (executeAction view a creds tid idx sdir).2.2
        = [PageCall.waitSel a.selector (jsOrNat a.timeout 30000),
           PageCall.fillCall a.selector
             (replaceCredentialPlaceholders (a.value.getD "") creds)
             (jsOrNat a.timeout 30000)]) ∧
    (a.type = "evaluate" →
      (executeAction view a creds tid idx sdir).2.2 = [PageCall.evaluateCall a.value]) := by
  constructor <;> intro h <;> simp [executeAction, h]

/-- C8 witness: a fill whose value is the user token reaches the page with
the resolved user name substituted. -/
theorem executeAction_placeholder_policy_witness :
    (executeAction pvDemo { actionOfType "fill" with selector := some "#u", value := some loginUserTok }
        credsDemo "t" 1 "d").2.2
      = [PageCall.waitSel (some "#u") 30000, PageCall.fillCall (some "#u") "alice" 30000] :=
  ((executeAction_placeholder_policy pvDemo
      { actionOfType "fill" with selector := some "#u", value := some loginUserTok }
      credsDemo "t" 1 "d").1 rfl).trans (by decide)

/-- C1: the claim (and the spec) says a failed TestResult carries a price
captured before the failing action.  On envDemo/tcDemo a price is captured
by the first action (the truncated case succeeds with that price), the
second action then throws — and the mature runTest returns the failed
result with no price at all, because the price variable is scoped inside
the try block and its catch block performs no extraction; the earlier
executor revision kept in the repository (runTestV3) returns the same
failed run with the captured price, which is the behaviour the claim
describes. -/
theorem runTest_failure_price_divergence :
    (runTest envDemo tcDemoPrefix 1 1 "shots").success = true ∧
    (runTest envDemo tcDemoPrefix 1 1 "shots").price = some "3,500円" ∧
    (runTest envDemo tcDemo 1 1 "shots").success = false ∧
    (runTest envDemo tcDemo 1 1 "shots").price = none ∧
    (runTest envDemo tcDemo 1 1 "shots").screenshots
      = ["shots/test_001_001.png", "shots/test_001_error_attempt1.png"] ∧
    (runTestV3 envDemo tcDemo 1 "shots").success = false ∧
    (runTestV3 envDemo tcDemo 1 "shots").price = some "3,500円" := by decide

/-- Every browser call the click attempt loop records carries the evenly
divided timeout, and a click call is forced exactly when its attempt
number is past the first. -/
theorem clickLoop_call_shape (env : ClickPageEnv) (t : ℚ) (mr : Nat) :
    ∀ (L : List Nat) (le : Option String) (call : ClickCall),
      call ∈ (clickLoop env t mr L le).2 →
      (∃ a, call = ClickCall.waitVisible a (t / mr)) ∨
      (∃ a, call = ClickCall.clickSel a (t / mr) (decide (1 < a))) := by
  intro L
  induction L with
  | nil => intro le call h; simp [clickLoop] at h
  | cons attempt rest ih =>
    intro le call h
    rcases hw : env.waitErr attempt with _ | e
    · rcases hc : env.clickErr attempt with _ | e
      · simp [clickLoop, hw, hc] at h
        rcases h with h | h
        · exact Or.inl ⟨attempt, h⟩
        · exact Or.inr ⟨attempt, h⟩
      · simp [clickLoop, hw, hc] at h
        rcases h with h | h | h
        · exact Or.inl ⟨attempt, h⟩
        · exact Or.inr ⟨attempt, h⟩
        · exact ih (some e) call h
    · simp [clickLoop, hw] at h
      rcases h with h | h
      · exact Or.inl ⟨attempt, h⟩
      · exact ih (some e) call h

/-- When every attempt in the loop fails, the loop throws the failure of
the last attempt. -/
theorem clickLoop_all_fail (env : ClickPageEnv) (t : ℚ) (mr : Nat) :
    ∀ (L1 : List Nat) (k : Nat) (le : Option String),
      (∀ a ∈ L1 ++ [k], (attemptErr env a).isSome) →
      (clickLoop env t mr (L1 ++ [k]) le).1 = Except.error (attemptErr env k) := by
  intro L1
  induction L1 with
  | nil =>
    intro k le hall
    have hk := hall k (by simp)
    rcases hw : env.waitErr k with _ | e
    · rcases hc : env.clickErr k with _ | e
      · simp [attemptErr, hw, hc] at hk
      · simp [clickLoop, hw, hc, attemptErr]
    · simp [clickLoop, hw, attemptErr]
  | cons a L1' ih =>
    intro k le hall
    have ha := hall a (by simp)
    rcases hw : env.waitErr a with _ | e
    · rcases hc : env.clickErr a with _ | e
      · simp [attemptErr, hw, hc] at ha
      · simpa [clickLoop, hw, hc] using
          ih k (some e) (fun x hx => hall x (List.mem_cons_of_mem a hx))
    · simpa [clickLoop, hw] using
        ih k (some e) (fun x hx => hall x (List.mem_cons_of_mem a hx))

/-- C5: Click recovery: a click whose underlying attempts fail twice and
then succeed on the third attempt (within the default budget of 3) returns
success without propagating any error; when all budgeted attempts fail the
loop throws the last underlying failure; and every underlying browser call
receives the per-click timeout divided evenly across attempts, with the
click forced exactly from the second attempt onward. -/
theorem clickWithRetry_recovery_policy :
    ((clickWithRetry clickEnvDemo 30000 3).1 = Except.ok ()) ∧
    (∀ (env : ClickPageEnv) (t : ℚ) (mr : Nat), 1 ≤ mr →
      (∀ a, 1 ≤ a → a ≤ mr → (attemptErr env a).isSome) →
      (clickWithRetry env t mr).1 = Except.error (attemptErr env mr)) ∧
    (∀ (env : ClickPageEnv) (t : ℚ) (mr : Nat) (call : ClickCall),
      call ∈ (clickWithRetry env t mr).2 →
      (∃ a, call = ClickCall.waitVisible a (t / mr)) ∨
      (∃ a, call = ClickCall.clickSel a (t / mr) (decide (1 < a)))) := by
  refine ⟨by rfl, ?_, ?_⟩
  · intro env t mr hmr hall
    have h1 : mr - 1 + 1 = mr := by omega
    have hsplit : List.range' 1 mr = List.range' 1 (mr - 1) ++ [1 + (mr - 1)] := by
      rw [← h1, List.range'_concat]
      simp
    have h2 : 1 + (mr - 1) = mr := by omega
    rw [h2] at hsplit
    rw [clickWithRetry, hsplit]
    refine clickLoop_all_fail env t mr (List.range' 1 (mr - 1)) mr none ?_
    intro a ha
    rcases List.mem_append.mp ha with h | h
    · have := List.mem_range'_1.mp h
      exact hall a this.1 (by omega)
    · simp at h
      subst h
      exact hall a hmr (by omega)
  · intro env t mr call h
    exact clickLoop_call_shape env t mr _ none call h

/-- C5 witness: with every attempt failing at the visibility wait, a
budget of 3 surfaces the failure of the last attempt. -/
theorem clickWithRetry_recovery_policy_witness :
    (∀ a, 1 ≤ a → a ≤ 3 →
      (attemptErr ⟨fun _ => some "timeout", fun _ => none⟩ a).isSome) ∧
    (clickWithRetry ⟨fun _ => some "timeout", fun _ => none⟩ 30000 3).1
      = Except.error (attemptErr ⟨fun _ => some "timeout", fun _ => none⟩ 3) :=
  ⟨fun _ _ _ => rfl,
   clickWithRetry_recovery_policy.2.1 ⟨fun _ => some "timeout", fun _ => none⟩ 30000 3
     (by decide) (fun _ _ _ => rfl)⟩

/-- The attempt field of every result the mature runTest returns equals
its attempt argument. -/
theorem runTestGo_attempt_eq (env : RunEnv) (tc : TestCase) (w a : Nat) (sdir : String) :
    ∀ (acts : List TestAction) (i : Nat) (shots : List String) (price : Option String),
      (runTestGo env tc w a sdir acts i shots price).attempt = some a := by
  intro acts
  induction acts with
  | nil => intro i shots price; rfl
  | cons act rest ih =>
    intro i shots price
    rcases ho : env.actOutcome i with msg | shot
    · simp [runTestGo, ho, failedResult]
    · simp only [runTestGo, ho]
      exact ih (i + 1) _ _

/-- runTest stamps its attempt argument into the result. -/
theorem runTest_attempt_eq (env : RunEnv) (tc : TestCase) (w a : Nat) (sdir : String) :
    (runTest env tc w a sdir).attempt = some a := by
  unfold runTest
  rcases env.launchErr with _ | msg
  · rcases env.gotoErr with _ | msg
    · exact runTestGo_attempt_eq env tc w a sdir tc.actions 0 [] none
    · simp [failedResult]
  · simp [failedResult]

/-- When the attempts before k all fail and attempt k succeeds, the retry
loop runs exactly the attempts before k and then k, sleeps the configured
delay times the attempt number after each failure, and returns the result
result. -/
theorem retryLoop_first_success (envs : Nat → RunEnv) (tc : TestCase) (w : Nat)
    (sdir : String) (d : Nat) (k : Nat)
    (hsucc : (runTest (envs k) tc w k sdir).success = true) :
    ∀ (L1 L2 : List Nat),
      (∀ j ∈ L1, (runTest (envs j) tc w j sdir).success = false) →
      retryLoop envs tc w sdir d (L1 ++ k :: L2)
        = ⟨some (runTest (envs k) tc w k sdir), L1.map (fun a => d * a), L1 ++ [k]⟩ := by
  intro L1
  induction L1 with
  | nil =>
    intro L2 _
    cases L2 with
    | nil => simp [retryLoop]
    | cons x xs => simp [retryLoop, hsucc]
  | cons a L1' ih =>
    intro L2 hfail
    have hfa := hfail a (List.mem_cons_self a L1')
    have ihres := ih L2 (fun j hj => hfail j (List.mem_cons_of_mem a hj))
    rcases hL : L1' ++ k :: L2 with _ | ⟨x, xs⟩
    · exact absurd hL (by simp)
    · rw [hL] at ihres
      show retryLoop envs tc w sdir d (a :: (L1' ++ k :: L2)) = _
      rw [hL]
      simp [retryLoop, hfa, ihres]

/-- When every attempt in the loop fails, the loop runs them all, sleeps
after each attempt but the last, and returns the result of the last attempt. -/
theorem retryLoop_all_fail (envs : Nat → RunEnv) (tc : TestCase) (w : Nat)
    (sdir : String) (d : Nat) (k : Nat) :
    ∀ (L1 : List Nat),
      (∀ j ∈ L1 ++ [k], (runTest (envs j) tc w j sdir).success = false) →
      retryLoop envs tc w sdir d (L1 ++ [k])
        = ⟨some (runTest (envs k) tc w k sdir), L1.map (fun a => d * a), L1 ++ [k]⟩ := by
  intro L1
  induction L1 with
  | nil => intro _; simp [retryLoop]
  | cons a L1' ih =>
    intro hfail
    have hfa := hfail a (List.mem_cons_self a (L1' ++ [k]))
    have ihres := ih (fun j hj => hfail j (List.mem_cons_of_mem a hj))
    rcases hL : L1' ++ [k] with _ | ⟨x, xs⟩
    · exact absurd hL (by simp)
    · rw [hL] at ihres
      show retryLoop envs tc w sdir d (a :: (L1' ++ [k])) = _
      rw [hL]
      simp [retryLoop, hfa, ihres]
      exact hL.symm

/-- The retry loop on a nonempty attempt list executes at least one
attempt. -/
theorem retryLoop_attempts_ne_nil (envs : Nat → RunEnv) (tc : TestCase) (w : Nat)
    (sdir : String) (d : Nat) :
    ∀ L : List Nat, L ≠ [] → (retryLoop envs tc w sdir d L).attempts ≠ [] := by
  intro L hL
  cases L with
  | nil => exact absurd rfl hL
  | cons a L' =>
    cases L' with
    | nil => simp [retryLoop]
    | cons x xs =>
      simp only [retryLoop]
      split <;> simp

/-- The sleeps the retry loop performs are exactly the configured base
delay times the attempt number, for every executed attempt except the
last. -/
theorem retryLoop_sleeps_linear (envs : Nat → RunEnv) (tc : TestCase) (w : Nat)
    (sdir : String) (d : Nat) :
    ∀ L : List Nat,
      (retryLoop envs tc w sdir d L).sleeps
        = ((retryLoop envs tc w sdir d L).attempts.dropLast).map (fun n => d * n) := by
  intro L
  induction L with
  | nil => simp [retryLoop]
  | cons a L' ih =>
    cases L' with
    | nil => simp [retryLoop]
    | cons x xs =>
      simp only [retryLoop]
      split
      · simp
      · have hne := retryLoop_attempts_ne_nil envs tc w sdir d (x :: xs) (by simp)
        obtain ⟨y, ys, hys⟩ := List.exists_cons_of_ne_nil hne
        simp only [hys] at ih ⊢
        simp [ih]

/-- The attempts the retry loop executes on a contiguous attempt range
form the contiguous range starting at the same number. -/
theorem retryLoop_attempts_range (envs : Nat → RunEnv) (tc : TestCase) (w : Nat)
    (sdir : String) (d : Nat) :
    ∀ (n s : Nat),
      (retryLoop envs tc w sdir d (List.range' s n)).attempts
        = List.range' s (retryLoop envs tc w sdir d (List.range' s n)).attempts.length := by
  intro n
  induction n with
  | zero => intro s; simp [retryLoop]
  | succ m ih =>
    intro s
    cases m with
    | zero => simp [retryLoop, List.range']
    | succ m' =>
      have hcons : List.range' s (m' + 1 + 1) = s :: List.range' (s + 1) (m' + 1) := by
        simp [List.range']
      rw [hcons]
      simp only [retryLoop]
      split
      · simp [List.range']
      · have ihs := ih (s + 1)
        simp only [List.length_cons, ihs]
        simp [List.range']
        exact ihs

/-- A contiguous attempt range splits at any member k into the attempts
before k, k itself, and the attempts after k. -/
theorem range'_split_at (k mr : Nat) (h1 : 1 ≤ k) (h2 : k ≤ mr) :
    List.range' 1 mr = List.range' 1 (k - 1) ++ k :: List.range' (k + 1) (mr - k) := by
  have h := List.range'_append_1 1 (k - 1) (mr - k + 1)
  have e1 : 1 + (k - 1) = k := by omega
  have e2 : mr - k + 1 + (k - 1) = mr := by omega
  rw [e1, e2] at h
  rw [← h]
  congr 1

/-- C3: Bounded whole-test retry: runTestWithRetry stops at the first
successful attempt and returns that result (having executed exactly the
attempts up to and including it); and for a case whose every attempt fails
and maximum attempts = 2, exactly attempts 1 and 2 execute, the returned
result is that of attempt 2, and its attempt field equals 2. -/
theorem runTestWithRetry_first_success_and_bound :
    (∀ (envs : Nat → RunEnv) (tc : TestCase) (w : Nat) (sdir : String) (d : Nat),
      (∀ a, (runTest (envs a) tc w a sdir).success = false) →
      runTestWithRetry envs tc w sdir 2 d
        = ⟨some (runTest (envs 2) tc w 2 sdir), [d * 1], [1, 2]⟩ ∧
      (runTest (envs 2) tc w 2 sdir).attempt = some 2) ∧
    (∀ (envs : Nat → RunEnv) (tc : TestCase) (w : Nat) (sdir : String) (mr d k : Nat),
      1 ≤ k → k ≤ mr →
      (∀ j, 1 ≤ j → j < k → (runTest (envs j) tc w j sdir).success = false) →
      (runTest (envs k) tc w k sdir).success = true →
      runTestWithRetry envs tc w sdir mr d
        = ⟨some (runTest (envs k) tc w k sdir),
           (List.range' 1 (k - 1)).map (fun a => d * a),
           List.range' 1 (k - 1) ++ [k]⟩) := by
  constructor
  · intro envs tc w sdir d hfail
    refine ⟨?_, runTest_attempt_eq (envs 2) tc w 2 sdir⟩
    have hr : List.range' 1 2 = [1] ++ [2] := by decide
    have h := retryLoop_all_fail envs tc w sdir d 2 [1] (fun j _ => hfail j)
    rw [runTestWithRetry, hr, h]
    rfl
  · intro envs tc w sdir mr d k hk1 hk2 hfail hsucc
    rw [runTestWithRetry, range'_split_at k mr hk1 hk2]
    refine retryLoop_first_success envs tc w sdir d k hsucc (List.range' 1 (k - 1))
      (List.range' (k + 1) (mr - k)) ?_
    intro j hj
    have hb := List.mem_range'_1.mp hj
    exact hfail j hb.1 (by omega)

/-- C3 witness: with every attempt failing at browser launch and maximum
attempts 2, exactly attempts 1 and 2 execute and the result of attempt 2, whose
attempt field is 2, is returned. -/
theorem runTestWithRetry_first_success_and_bound_witness :
    runTestWithRetry (fun _ => envFail) tcDemo 1 "shots" 2 5000
      = ⟨some (runTest envFail tcDemo 1 2 "shots"), [5000 * 1], [1, 2]⟩ ∧
    (runTest envFail tcDemo 1 2 "shots").attempt = some 2 :=
  runTestWithRetry_first_success_and_bound.1 (fun _ => envFail) tcDemo 1 "shots" 5000
    (fun _ => rfl)

/-- C9: Linear (not exponential) backoff: the attempts runTestWithRetry
executes are the contiguous range 1..n for some n, and the sleeps it
performs are exactly the configured base delay multiplied by the attempt
number, one for every executed attempt except the last — i.e. the delay
before attempt j+1 is base * j, growing linearly. -/
theorem runTestWithRetry_linear_backoff (envs : Nat → RunEnv) (tc : TestCase) (w : Nat)
    (sdir : String) (mr d : Nat) :
    (runTestWithRetry envs tc w sdir mr d).sleeps
      = ((runTestWithRetry envs tc w sdir mr d).attempts.dropLast).map (fun n => d * n) ∧
    (runTestWithRetry envs tc w sdir mr d).attempts
      = List.range' 1 (runTestWithRetry envs tc w sdir mr d).attempts.length := by
  unfold runTestWithRetry
  exact ⟨retryLoop_sleeps_linear envs tc w sdir d (List.range' 1 mr),
         retryLoop_attempts_range envs tc w sdir d mr 1⟩

/-- Updating one worker slot exchanges the running contribution of the slot:
the claimed-case multiset of the updated worker list plus the contribution
of the old slot equals the old claimed-case multiset plus the new value
contribution. -/
theorem runningCases_set (l : List WStatus) :
    ∀ (i : Nat) (hi : i < l.length) (v : WStatus),
      (↑(runningCases (l.set i v)) : Multiset TestCase) + ↑(runningOf (l.get ⟨i, hi⟩)).toList
        = ↑(runningCases l) + ↑(runningOf v).toList := by
  induction l with
  | nil => intro i hi; simp at hi
  | cons a t ih =>
    intro i hi v
    cases i with
    | zero =>
      simp only [List.set, List.get]
      simp only [runningCases, List.filterMap_cons]
      rcases hv : runningOf v with _ | tcv <;> rcases ha : runningOf a with _ | tca <;>
        simp [hv, ha, ← Multiset.cons_coe, ← Multiset.singleton_add] <;> abel
    | succ j =>
      have hj : j < t.length := by simpa using hi
      have hrec := ih j hj v
      simp only [List.set, List.get]
      simp only [runningCases, List.filterMap_cons]
      rcases ha : runningOf a with _ | tca
      · exact hrec
      · simp only [← Multiset.cons_coe, ← Multiset.singleton_add]
        rw [add_assoc, add_assoc]
        simp only [runningCases] at hrec
        rw [hrec]

/-- The scheduler invariant: the queued, claimed and completed cases
together are exactly the input cases (counted with multiplicity); once any
worker has halted the queue is empty for good; the worker count is stable;
and every pushed result is what some in-range worker returns from whole-test
execution for the recorded case. -/
def SchedInv (exec : Nat → TestCase → Option TestResult) (cases : List TestCase)
    (n : Nat) (s : SchedState) : Prop :=
  ((↑s.queue : Multiset TestCase) + ↑(runningCases s.workers) + ↑(s.results.map Prod.fst)
      = ↑cases) ∧
  (s.queue ≠ [] → WStatus.done ∉ s.workers) ∧
  s.workers.length = n ∧
  (∀ p ∈ s.results, ∃ w, 1 ≤ w ∧ w ≤ n ∧ p.2 = exec w p.1)

/-- Every scheduler step preserves the invariant. -/
theorem schedStep_inv (exec : Nat → TestCase → Option TestResult) (cases : List TestCase)
    (n : Nat) (s t : SchedState) (hinv : SchedInv exec cases n s)
    (hstep : SchedStep exec s t) : SchedInv exec cases n t := by
  obtain ⟨hcons, hdone, hlen, hres⟩ := hinv
  cases hstep with
  | pop i hi hidle tc rest hq =>
    refine ⟨?_, ?_, by simp [hlen], fun p hp => hres p hp⟩
    · have hrc := runningCases_set s.workers i hi (WStatus.running tc)
      rw [hidle] at hrc
      simp only [runningOf, Option.toList, Multiset.coe_nil, add_zero,
        Multiset.coe_singleton] at hrc
      rw [hq] at hcons
      simp only [← Multiset.cons_coe, ← Multiset.singleton_add] at hcons
      dsimp only
      rw [hrc, ← hcons]
      abel
    · intro hne hmem
      have hq2 : s.queue ≠ [] := by rw [hq]; simp
      rcases List.mem_or_eq_of_mem_set hmem with h | h
      · exact hdone hq2 h
      · cases h
  | finish i hi tc hrun =>
    refine ⟨?_, ?_, by simp [hlen], ?_⟩
    · have hrc := runningCases_set s.workers i hi WStatus.idle
      rw [hrun] at hrc
      simp only [runningOf, Option.toList, Multiset.coe_nil, add_zero,
        Multiset.coe_singleton] at hrc
      dsimp only
      rw [List.map_append, ← Multiset.coe_add, ← hcons, ← hrc]
      simp only [List.map_cons, List.map_nil, Multiset.coe_singleton]
      abel
    · intro hne hmem
      rcases List.mem_or_eq_of_mem_set hmem with h | h
      · exact hdone hne h
      · cases h
    · intro p hp
      rcases List.mem_append.mp hp with h | h
      · exact hres p h
      · simp at h
        subst h
        refine ⟨i + 1, by omega, ?_, rfl⟩
        omega
  | halt i hi hidle hq =>
    refine ⟨?_, ?_, by simp [hlen], fun p hp => hres p hp⟩
    · have hrc := runningCases_set s.workers i hi WStatus.done
      rw [hidle] at hrc
      simp only [runningOf, Option.toList, Multiset.coe_nil, add_zero] at hrc
      dsimp only
      rw [hrc]
      exact hcons
    · intro hne
      exact absurd hq hne

/-- In a terminal scheduler state every worker has halted: an idle worker
could still pop or halt, and a running worker could still finish. -/
theorem schedTerminal_all_done (exec : Nat → TestCase → Option TestResult) (s : SchedState)
    (hterm : SchedTerminal exec s) :
    ∀ (i : Nat) (hi : i < s.workers.length), s.workers.get ⟨i, hi⟩ = WStatus.done := by
  intro i hi
  rcases hst : s.workers.get ⟨i, hi⟩ with _ | tc | _
  · rcases hq : s.queue with _ | ⟨c, rest⟩
    · exact absurd (SchedStep.halt s i hi hst hq) (hterm _)
    · exact absurd (SchedStep.pop s i hi hst c rest hq) (hterm _)
  · exact absurd (SchedStep.finish s i hi tc hst) (hterm _)
  · rfl

/-- The invariant holds at the initial state. -/
theorem schedInv_init (exec : Nat → TestCase → Option TestResult) (cases : List TestCase)
    (n : Nat) : SchedInv exec cases n (SchedInit cases n) := by
  refine ⟨?_, ?_, by simp [SchedInit], by simp [SchedInit]⟩
  · have h : runningCases (List.replicate n WStatus.idle) = [] := by
      rw [runningCases, List.filterMap_eq_nil_iff]
      intro a ha
      rw [List.eq_of_mem_replicate ha]
      rfl
    simp [SchedInit, h]
  · intro _
    intro hmem
    have := List.eq_of_mem_replicate hmem
    cases this

/-- C2: for every input case list and every parallelism n ≥ 1, any
terminal state the scheduler reaches carries exactly one pushed result per
input case: the multiset of cases the results were produced from equals
the multiset of input cases (no case skipped, none claimed twice), and
each pushed result is exactly what runTestWithRetry returned — the final
result of the final attempt — for the in-range worker that popped the case. -/
theorem runTestsInParallel_one_result_per_case
    (envs : Nat → TestCase → Nat → RunEnv) (sdir : String) (mr d : Nat)
    (cases : List TestCase) (n : Nat) (s : SchedState)
    (hn : 1 ≤ n)
    (hreach : SchedReachable (schedExec envs sdir mr d) (SchedInit cases n) s)
    (hterm : SchedTerminal (schedExec envs sdir mr d) s) :
    (↑(s.results.map Prod.fst) : Multiset TestCase) = ↑cases ∧
    (∀ p ∈ s.results, ∃ w, 1 ≤ w ∧ w ≤ n ∧
      p.2 = (runTestWithRetry (envs w p.1) p.1 w sdir mr d).result) := by
  have hinv : SchedInv (schedExec envs sdir mr d) cases n s := by
    clear hterm
    induction hreach with
    | refl => exact schedInv_init _ cases n
    | tail hsteps hstep ih => exact schedStep_inv _ cases n _ _ ih hstep
  obtain ⟨hcons, hdone, hlen, hres⟩ := hinv
  have halldone := schedTerminal_all_done _ s hterm
  have hmem : WStatus.done ∈ s.workers := by
    have h0 : 0 < s.workers.length := by omega
    have := halldone 0 h0
    exact this ▸ List.get_mem _ _ _
  have hq : s.queue = [] := by
    by_contra h
    exact hdone h hmem
  have hrc : runningCases s.workers = [] := by
    rw [runningCases, List.filterMap_eq_nil_iff]
    intro a ha
    obtain ⟨⟨i, hlt⟩, rfl⟩ := List.mem_iff_get.mp ha
    rw [halldone i hlt]
    rfl
  rw [hq, hrc] at hcons
  simp only [Multiset.coe_nil, zero_add] at hcons
  exact ⟨hcons, hres⟩

/-- No scheduler step leaves the demo terminal state. -/
theorem schedFinal_terminal : SchedTerminal execDemo schedFinal := by
  intro t h
  cases h with
  | pop i hi hidle tc rest hq => exact List.noConfusion hq
  | finish i hi tc hrun =>
    have hi1 : i < 1 := hi
    have h0 : i = 0 := by omega
    subst h0
    exact WStatus.noConfusion hrun
  | halt i hi hidle hq =>
    have hi1 : i < 1 := hi
    have h0 : i = 0 := by omega
    subst h0
    exact WStatus.noConfusion hidle

/-- The demo terminal state is reachable from the initial state with one
case and one worker: pop, finish, halt. -/
theorem schedFinal_reachable :
    SchedReachable execDemo (SchedInit [tcDemo] 1) schedFinal := by
  have step1 : SchedStep execDemo (SchedInit [tcDemo] 1) schedMid1 :=
    SchedStep.pop (SchedInit [tcDemo] 1) 0 (by simp [SchedInit]) rfl tcDemo [] rfl
  have step2 : SchedStep execDemo schedMid1 schedMid2 :=
    SchedStep.finish schedMid1 0 (by simp [schedMid1]) tcDemo rfl
  have step3 : SchedStep execDemo schedMid2 schedFinal :=
    SchedStep.halt schedMid2 0 (by simp [schedMid2]) rfl rfl
  exact Relation.ReflTransGen.head step1
    (Relation.ReflTransGen.head step2 (Relation.ReflTransGen.single step3))

/-- C2 witness: with one case and one worker, the reachable terminal state
holds exactly one result, produced from the one input case. -/
theorem runTestsInParallel_one_result_per_case_witness :
    (↑(schedFinal.results.map Prod.fst) : Multiset TestCase) = ↑[tcDemo] :=
  (runTestsInParallel_one_result_per_case (fun _ _ _ => envFail) "shots" 2 5000
    [tcDemo] 1 schedFinal (by decide) schedFinal_reachable schedFinal_terminal).1
